import Mathlib

/-!
Shallow embedding of the TPM character driver
`linux-2.6-xen-sparse/drivers/char/tpm/tpm_nopci.c`.

Machine integers are modelled as `Nat` (unsigned bytes/words) and `Int`
(C `int`/`ssize_t` return values).  The vendor-specific transport
(`send`/`status`/`cancel`/`recv`) is an oracle packaged in `Vendor`;
time (jiffies, HZ, the msleep interval) is packaged in `Env`.
-/

namespace Tpm

/-- `TPM_BUFSIZE` from the driver's anonymous enum. -/
def TPM_BUFSIZE : Nat := 2048

/-- `TPM_NUM_DEVICES` from the driver's anonymous enum. -/
def TPM_NUM_DEVICES : Nat := 256

/-- `TPM_NUM_MASK_ENTRIES = TPM_NUM_DEVICES / (8 * sizeof(int)) = 256 / 32 = 8`. -/
def TPM_NUM_MASK_ENTRIES : Nat := 8

/-- `TPM_DIGEST_SIZE` (20 bytes). -/
def TPM_DIGEST_SIZE : Nat := 20

/-- `READ_PCR_RESULT_SIZE` (30 bytes). -/
def READ_PCR_RESULT_SIZE : Nat := 30

/-- Linux errno `ENODATA`. -/
def ENODATA : Int := 61

/-- Linux errno `E2BIG`. -/
def E2BIG : Int := 7

/-- Linux errno `ECANCELED`. -/
def ECANCELED : Int := 125

/-- Linux errno `ETIME`. -/
def ETIME : Int := 62

/-- Linux errno `ENODEV`. -/
def ENODEV : Int := 19

/-- Linux errno `ENOSPC`. -/
def ENOSPC : Int := 28

/-- Linux errno `EFAULT`. -/
def EFAULT : Int := 14

/-- `be32_to_cpu(*((__be32 *)(b + off)))`: big-endian 32-bit read of four
bytes at offset `off`.  Out-of-range reads default to byte 0. -/
def be32 (b : List Nat) (off : Nat) : Nat :=
  b.getD off 0 * 2 ^ 24 + b.getD (off + 1) 0 * 2 ^ 16 +
    b.getD (off + 2) 0 * 2 ^ 8 + b.getD (off + 3) 0

/-- `memcpy(dst, src, src.length)` into the front of `dst`, keeping the
rest of `dst`; the result always has `dst.length` bytes. -/
def overwrite (dst src : List Nat) : List Nat :=
  src.take dst.length ++ dst.drop src.length

/-- Reinterpret an unsigned 32-bit value as a C `int` (two's complement). -/
def toInt32 (x : Nat) : Int :=
  if x % 2 ^ 32 < 2 ^ 31 then (x % 2 ^ 32 : Nat) else (x % 2 ^ 32 : Nat) - 2 ^ 32

/-- The vendor transport oracle: result of `send`, the status byte
returned by the k-th `status()` poll, the three completion constants,
and the result/payload of `recv`. -/
structure Vendor where
  sendResult : Int
  statusAt : Nat → Nat
  req_complete_mask : Nat
  req_complete_val : Nat
  req_canceled : Nat
  recvResult : Int
  recvBytes : List Nat

/-- The timing environment: `HZ` (jiffies per second), the jiffies value
when the poll deadline is computed, and the msleep advance (each
`msleep(TPM_TIMEOUT)` advances jiffies by `sleep1 + 1 > 0`). -/
structure Env where
  HZ : Nat
  startJ : Nat
  sleep1 : Nat

/-- Observable events of one `tpm_transmit` run: mutex down/up and the
three vendor operations other than `status`. -/
inductive Ev
  | acquire
  | send
  | cancel
  | recv
  | release
deriving DecidableEq, Repr

/-- How the completion poll loop of `tpm_transmit` exited. -/
inductive PollExit
  | completed
  | canceled
  | timedOut
deriving DecidableEq, Repr

/-- Result of the poll loop: exit kind and the final jiffies value. -/
structure PollOut where
  exit : PollExit
  fin : Nat
deriving DecidableEq, Repr

/-- The `do { status = vendor->status(chip); ... msleep(TPM_TIMEOUT); }
while (time_before(jiffies, stop))` loop of `tpm_transmit`.  `k` counts
polls performed so far, `now` is the current jiffies value. -/
def pollFrom (statusAt : Nat → Nat) (mask cval canc sleep1 stop : Nat)
    (k now : Nat) : PollOut :=
  if statusAt k &&& mask = cval then ⟨.completed, now⟩
  else if statusAt k = canc then ⟨.canceled, now⟩
  else if h : now + sleep1 + 1 < stop then
    pollFrom statusAt mask cval canc sleep1 stop (k + 1) (now + sleep1 + 1)
  else ⟨.timedOut, now + sleep1 + 1⟩
termination_by stop - now
decreasing_by omega

/-- Result of `tpm_transmit`: return code, the (possibly overwritten)
command/response buffer, the chip's `data_position` after the call, and
the event trace. -/
structure TransmitOut where
  rc : Int
  buf : List Nat
  pos : Int
  trace : List Ev
deriving DecidableEq, Repr

/-- `tpm_transmit(chip, buf, bufsiz)`.  `pos` is the chip's
`data_position` on entry (reset to 0 on the receive path). -/
def tpm_transmit (v : Vendor) (e : Env) (buf : List Nat) (bufsiz : Nat)
    (pos : Int) : TransmitOut :=
  let count := be32 buf 2
  if count = 0 then ⟨-ENODATA, buf, pos, []⟩
  else if bufsiz < count then ⟨-E2BIG, buf, pos, []⟩
  else if v.sendResult < 0 then
    ⟨v.sendResult, buf, pos, [.acquire, .send, .release]⟩
  else
    let p := pollFrom v.statusAt v.req_complete_mask v.req_complete_val
      v.req_canceled e.sleep1 (e.startJ + 2 * 60 * e.HZ) 0 e.startJ
    match p.exit with
    | .canceled => ⟨-ECANCELED, buf, pos, [.acquire, .send, .release]⟩
    | .timedOut => ⟨-ETIME, buf, pos, [.acquire, .send, .cancel, .release]⟩
    | .completed =>
        ⟨v.recvResult, overwrite buf (v.recvBytes.take bufsiz), 0,
          [.acquire, .send, .recv, .release]⟩

/-! ## Device registry and device-number allocator -/

/-- The nested scan of `tpm_register_hardware_nopci`: first pair `(i, j)`
with `i < TPM_NUM_MASK_ENTRIES`, `j < 8 * sizeof(int) = 32`, such that
bit `j` of `dev_mask[i]` is clear, scanning `i` outer, `j` inner. -/
def findSlot (mask : List Nat) : Option (Nat × Nat) :=
  (List.range TPM_NUM_MASK_ENTRIES).findSome? fun i =>
    ((List.range 32).find? fun j => mask.getD i 0 &&& (1 <<< j) = 0).map
      fun j => (i, j)

/-- The allocator step of `tpm_register_hardware_nopci`: on success
returns the assigned `dev_num = i * TPM_NUM_MASK_ENTRIES + j` (as the
source computes it) and the updated mask with `dev_mask[i] |= 1 << j`;
on exhaustion returns `none` (the function fails with `-ENODEV`,
dubbed `NoDeviceNumber` by the spec) and leaves the mask unchanged. -/
def tpm_register_hardware_nopci (mask : List Nat) : Option Nat × List Nat :=
  match findSlot mask with
  | none => (none, mask)
  | some (i, j) =>
      (some (i * TPM_NUM_MASK_ENTRIES + j), mask.set i (mask.getD i 0 ||| (1 <<< j)))

/-- Run `n` consecutive registrations, collecting the assigned device
numbers in order. -/
def registerSeq : Nat → List Nat → List (Option Nat) × List Nat
  | 0, mask => ([], mask)
  | n + 1, mask =>
      let r := tpm_register_hardware_nopci mask
      let rest := registerSeq n r.2
      (r.1 :: rest.1, rest.2)

/-- `static int dev_mask[32]`, all clear at module load. -/
def initMask : List Nat := List.replicate 32 0

/-- C logical negation `!x`: 1 if `x = 0`, else 0. -/
def cLnot (x : Nat) : Nat := if x = 0 then 1 else 0

/-- The bitmap update of `tpm_remove_hardware`, exactly as written:
`dev_mask[dev_num / TPM_NUM_MASK_ENTRIES] &=
 !(1 << (dev_num % TPM_NUM_MASK_ENTRIES))` — note the C logical `!`. -/
def tpm_remove_hardware (mask : List Nat) (dev_num : Nat) : List Nat :=
  mask.set (dev_num / TPM_NUM_MASK_ENTRIES)
    (mask.getD (dev_num / TPM_NUM_MASK_ENTRIES) 0 &&&
      cLnot (1 <<< (dev_num % TPM_NUM_MASK_ENTRIES)))

/-! ## Per-chip response hand-off state -/

/-- The mutable per-chip state driving the user-facing read/write
hand-off: `data_pending` and `data_position` are C `int`s (atomic_t),
`data_buffer` is the `TPM_BUFSIZE` session buffer, `timer` is the
single-shot `user_read_timer` (`some w` = armed with window `w`
jiffies, i.e. `mod_timer(..., jiffies + w)`). -/
structure Chip where
  data_pending : Int
  data_position : Int
  data_buffer : List Nat
  timer : Option Nat
deriving DecidableEq, Repr

/-- A freshly registered and opened chip: `memset(chip, 0, ...)` at
registration zeroes `data_position`; `tpm_open` zeroes `data_pending`
and allocates the session buffer `b` (kmalloc, contents arbitrary). -/
def chipInit (b : List Nat) : Chip := ⟨0, 0, b, none⟩

/-- `user_reader_timeout`: the expiry-timer handler.  Zeroes
`data_pending` and `memset`s the whole `TPM_BUFSIZE` buffer to 0. -/
def user_reader_timeout (c : Chip) : Chip :=
  { c with
    data_pending := 0,
    data_buffer := List.replicate TPM_BUFSIZE 0,
    timer := none }

/-- `tpm_write(file, buf, size)`, on an idle chip (the function spins
while `data_pending != 0` before this point) with a successful
`copy_from_user`.  Returns `(return value, new chip state)`:
`in_size = min(size, TPM_BUFSIZE)` bytes are copied into the buffer,
`tpm_transmit` runs on the full `TPM_BUFSIZE` buffer, its result
becomes `data_pending`, the 60-second reader timer is armed, and the
call returns `in_size`. -/
def tpm_write (v : Vendor) (e : Env) (c : Chip) (input : List Nat) :
    Int × Chip :=
  let in_size := min input.length TPM_BUFSIZE
  let buf1 := overwrite c.data_buffer (input.take in_size)
  let t := tpm_transmit v e buf1 TPM_BUFSIZE c.data_position
  ((in_size : Nat),
    { data_pending := t.rc, data_position := t.pos, data_buffer := t.buf,
      timer := some (60 * e.HZ) })

/-- Result of `tpm_read`: return value, the bytes copied to the caller,
and the new chip state. -/
structure ReadOut where
  rc : Int
  bytes : List Nat
  chip : Chip
deriving DecidableEq, Repr

/-- `tpm_read(file, buf, size)`.  `fault` models a failing
`copy_to_user`.  Deletes the reader timer, then if `data_pending > 0`
copies `min(data_pending, size)` bytes starting at `data_position`,
decrements `data_pending` and advances `data_position` by that amount;
otherwise returns `data_pending` with no further state change. -/
def tpm_read (c : Chip) (size : Nat) (fault : Bool) : ReadOut :=
  let c0 := { c with timer := none }
  let ret := c0.data_pending
  if 0 < ret then
    let position := c0.data_position
    let ret_size := min ret (size : Int)
    if fault then ⟨-EFAULT, [], c0⟩
    else
      ⟨ret_size, (c0.data_buffer.drop position.toNat).take ret_size.toNat,
        { c0 with
          data_pending := ret - ret_size,
          data_position := position + ret_size }⟩
  else ⟨ret, [], c0⟩

/-! ## Operation sequences over the hand-off state -/

/-- One operation on the hand-off state: a user `write` (with its
transport oracle and environment), a user `read`, or the expiry timer
firing. -/
inductive Op
  | write (v : Vendor) (e : Env) (input : List Nat)
  | read (size : Nat) (fault : Bool)
  | timerFire

/-- Apply one operation.  `tpm_write` spins while `data_pending != 0`,
so a write is only applied in the idle state (otherwise the caller is
still blocked and the state is unchanged). -/
def stepOp (c : Chip) : Op → Chip
  | .write v e input => if c.data_pending = 0 then (tpm_write v e c input).2 else c
  | .read size fault => (tpm_read c size fault).chip
  | .timerFire => user_reader_timeout c

/-- Run a sequence of operations. -/
def runOps (c : Chip) : List Op → Chip
  | [] => c
  | op :: ops => runOps (stepOp c op) ops

/-- The vendor contract assumed of the transport: `recv(chip, buf,
bufsiz)` never reports more bytes than the `TPM_BUFSIZE` capacity it
was given. -/
def VendorOK (v : Vendor) : Prop := v.recvResult ≤ (TPM_BUFSIZE : Nat)

/-- The vendor contract, lifted to an operation. -/
def OpOK : Op → Prop
  | .write v _ _ => VendorOK v
  | .read _ _ => True
  | .timerFire => True

/-! ## `tpm_pcr_read` -/

/-- The fixed `pcrread` command template (14 bytes): tag, length 14,
`TPM_ORD_PcrRead`, PCR index placeholder. -/
def pcrread : List Nat := [0, 193, 0, 0, 0, 14, 0, 0, 0, 21, 0, 0, 0, 0]

/-- `cpu_to_be32 x` as a 4-byte big-endian list. -/
def be32bytes (x : Nat) : List Nat :=
  [x / 2 ^ 24 % 256, x / 2 ^ 16 % 256, x / 2 ^ 8 % 256, x % 256]

/-- `memcpy(dst + off, src, src.length)`, clipped to `dst`'s extent. -/
def writeAt (dst : List Nat) (off : Nat) (src : List Nat) : List Nat :=
  dst.take off ++ src.take (dst.length - off) ++ dst.drop (off + src.length)

/-- The 30-byte stack buffer of `tpm_pcr_read` after
`memcpy(data, pcrread, sizeof(pcrread))` and
`memcpy(data + 10, &index, 4)`; `uninit` is the uninitialized stack
contents of `u8 data[READ_PCR_RESULT_SIZE]`. -/
def pcrReadData (pcr_idx : Nat) (uninit : List Nat) : List Nat :=
  writeAt (overwrite uninit pcrread) 10 (be32bytes pcr_idx)

/-- Result of `tpm_pcr_read`: return code, the digest copied out (or
none), and the transaction's event trace (empty when `tpm_transmit`
was never invoked). -/
structure PcrReadOut where
  rc : Int
  digest : Option (List Nat)
  trace : List Ev
deriving DecidableEq, Repr

/-- `tpm_pcr_read(chip_id, pcr_idx, res_buf, res_buf_size)`.
`chipFound` models whether `tpm_chip_lookup` finds a chip; `res_buf`
models whether the caller's result pointer is non-null. -/
def tpm_pcr_read (v : Vendor) (e : Env) (chipFound : Bool) (pcr_idx : Nat)
    (res_buf : Bool) (res_buf_size : Int) (uninit : List Nat) : PcrReadOut :=
  if res_buf = true ∧ res_buf_size < (TPM_DIGEST_SIZE : Nat) then ⟨-ENOSPC, none, []⟩
  else if chipFound = false then ⟨-ENODEV, none, []⟩
  else
    let t := tpm_transmit v e (pcrReadData pcr_idx uninit) READ_PCR_RESULT_SIZE 0
    let rc := if 0 < t.rc then toInt32 (be32 t.buf 6) else t.rc
    if rc = 0 ∧ res_buf = true then
      ⟨0, some ((t.buf.drop 10).take TPM_DIGEST_SIZE), t.trace⟩
    else ⟨rc, none, t.trace⟩

/-! ## The transaction mutex, as a concurrent transition system

`tpm_transmit` brackets the vendor operations in
`down(&chip->tpm_mutex)` / `up(&chip->tpm_mutex)`.  `MSys n` is `n`
callers concurrently running `tpm_transmit` on one chip: each is
before the `down`, blocked in `down`, inside the critical section
(where `send`/poll/`recv` happen), or past the `up`. -/

/-- Control point of one caller inside `tpm_transmit`. -/
inductive Phase
  | before
  | waiting
  | critical
  | past
deriving DecidableEq, Repr

/-- `n` concurrent callers plus the chip's `tpm_mutex` (its holder, if
any). -/
structure MSys (n : Nat) where
  phase : Fin n → Phase
  owner : Option (Fin n)

/-- All callers before their `down`, mutex free. -/
def initSys (n : Nat) : MSys n := ⟨fun _ => .before, none⟩

/-- Interleaved execution: a caller reaches `down` (`toWait`), `down`
returns only when the mutex is free (`acquire`), and the caller leaves
the critical section through `up` (`release`) — which `tpm_transmit`
executes on every exit path. -/
inductive MStep {n : Nat} : MSys n → MSys n → Prop
  | toWait {s : MSys n} (t : Fin n) : s.phase t = .before →
      MStep s ⟨Function.update s.phase t .waiting, s.owner⟩
  | acquire {s : MSys n} (t : Fin n) : s.phase t = .waiting → s.owner = none →
      MStep s ⟨Function.update s.phase t .critical, some t⟩
  | release {s : MSys n} (t : Fin n) : s.phase t = .critical →
      MStep s ⟨Function.update s.phase t .past, none⟩

/-- The mutex invariant: a caller in the critical section holds the
mutex. -/
def MInv {n : Nat} (s : MSys n) : Prop :=
  ∀ t, s.phase t = .critical → s.owner = some t

/-! ## Helper lemmas -/

theorem overwrite_length (dst src : List Nat) :
    (overwrite dst src).length = dst.length := by
  simp [overwrite]
  omega

theorem getD_take_lt (l : List Nat) (m n d : Nat) (h : n < m) :
    (l.take m).getD n d = l.getD n d := by
  rw [List.getD_eq_getElem?_getD, List.getD_eq_getElem?_getD, List.getElem?_take]
  simp [h]

theorem getD_overwrite (dst src : List Nat) (n d : Nat)
    (h1 : n < src.length) (h2 : n < dst.length) :
    (overwrite dst src).getD n d = src.getD n d := by
  rw [overwrite]
  rw [List.getD_append _ _ _ _ (by simp; omega)]
  exact getD_take_lt src dst.length n d h2

theorem be32_overwrite (dst src : List Nat)
    (h1 : 6 ≤ src.length) (h2 : 6 ≤ dst.length) :
    be32 (overwrite dst src) 2 = be32 src 2 := by
  unfold be32
  rw [getD_overwrite dst src 2 0 (by omega) (by omega),
    getD_overwrite dst src 3 0 (by omega) (by omega),
    getD_overwrite dst src 4 0 (by omega) (by omega),
    getD_overwrite dst src 5 0 (by omega) (by omega)]

theorem take_overwrite (dst src : List Nat) (h : src.length ≤ dst.length) :
    (overwrite dst src).take src.length = src := by
  rw [overwrite, List.take_of_length_le h]
  exact List.take_left src _

/-! ## Concrete instances used by witnesses -/

/-- A transport whose status never satisfies completion. -/
def vW : Vendor := ⟨0, fun _ => 0, 1, 1, 5, 0, []⟩

/-- A transport that completes on the first poll and delivers 4 bytes. -/
def vR : Vendor := ⟨0, fun _ => 1, 1, 1, 5, 4, [1, 2, 3, 4]⟩

/-- A small timing environment: `HZ = 1`, start at jiffy 0, `msleep`
advances one jiffy. -/
def eW : Env := ⟨1, 0, 0⟩

/-- A freshly opened chip over a zeroed session buffer. -/
def cW : Chip := chipInit (List.replicate TPM_BUFSIZE 0)

/-! ## Claims -/

/-- C4: for every command whose big-endian 4-byte length field at
offset 2 decodes to zero, `tpm_transmit` returns `-ENODATA`, and for
every command whose decoded length exceeds the capacity argument it
returns `-E2BIG`; in both cases the trace is empty (the vendor `send`
is never invoked) and the buffer and `data_position` are unchanged. -/
theorem transmit_length_validation (v : Vendor) (e : Env) (buf : List Nat)
    (bufsiz : Nat) (pos : Int) :
    (be32 buf 2 = 0 →
      tpm_transmit v e buf bufsiz pos = ⟨-ENODATA, buf, pos, []⟩) ∧
    (bufsiz < be32 buf 2 →
      tpm_transmit v e buf bufsiz pos = ⟨-E2BIG, buf, pos, []⟩) := by
  constructor
  · intro h
    simp [tpm_transmit, h]
  · intro h
    have h0 : ¬ be32 buf 2 = 0 := by omega
    simp [tpm_transmit, h0, h]

/-- Witness for C4 at concrete inputs: a zero-length command and a
command of length 9 against capacity 8. -/
theorem transmit_length_validation_witness :
    tpm_transmit vW eW [0, 0, 0, 0, 0, 0] 8 0 = ⟨-ENODATA, [0, 0, 0, 0, 0, 0], 0, []⟩ ∧
    tpm_transmit vW eW [0, 0, 0, 0, 0, 9] 8 0 = ⟨-E2BIG, [0, 0, 0, 0, 0, 9], 0, []⟩ :=
  ⟨(transmit_length_validation vW eW [0, 0, 0, 0, 0, 0] 8 0).1 (by decide),
   (transmit_length_validation vW eW [0, 0, 0, 0, 0, 9] 8 0).2 (by decide)⟩

/-- C8: the expiry-timer handler `user_reader_timeout` zeroes the
pending count, clears the entire `TPM_BUFSIZE` data buffer to zero,
and a subsequent `tpm_read` returns 0 with no bytes. -/
theorem timer_discards_pending_result (c : Chip) (size : Nat) :
    (user_reader_timeout c).data_pending = 0 ∧
    (user_reader_timeout c).data_buffer = List.replicate TPM_BUFSIZE 0 ∧
    (tpm_read (user_reader_timeout c) size false).rc = 0 ∧
    (tpm_read (user_reader_timeout c) size false).bytes = [] := by
  refine ⟨rfl, rfl, ?_, ?_⟩ <;> simp [tpm_read, user_reader_timeout]

set_option maxRecDepth 100000 in
/-- C1 (code bug): the allocator computes
`dev_num = i * TPM_NUM_MASK_ENTRIES + j` (with `TPM_NUM_MASK_ENTRIES
= 8`) while `j` ranges over the 32 bits of a mask word, so the 9th and
33rd registrations from an empty bitmap both receive device number 8 —
simultaneously live chips do not get pairwise distinct numbers.  The
exhaustion behaviour the claim also states does hold: 256 consecutive
registrations all succeed, the 257th fails and leaves the bitmap
unchanged. -/
theorem register_assigns_duplicate_dev_num :
    (registerSeq 33 initMask).1.getD 8 none = some 8 ∧
    (registerSeq 33 initMask).1.getD 32 none = some 8 ∧
    ((registerSeq 257 initMask).1.take 256).all Option.isSome = true ∧
    (registerSeq 257 initMask).1.getD 256 none = none ∧
    (registerSeq 257 initMask).2 = (registerSeq 256 initMask).2 := by
  refine ⟨by decide, by decide, by decide, by decide, by decide⟩

/-- C2 (code bug): `tpm_remove_hardware` updates the bitmap with
`dev_mask[...] &= !(1 << ...)` — C logical negation, which is 0 — so
removing the chip with device number 0 from a bitmap holding chips 0
and 1 zeroes the whole mask word: chip 1's bit, which the claim says
must be left unchanged, is cleared while chip 1 is still live. -/
theorem remove_clears_entire_mask_word :
    Nat.testBit ((registerSeq 2 initMask).2.getD 0 0) 1 = true ∧
    tpm_remove_hardware (registerSeq 2 initMask).2 0 = initMask ∧
    Nat.testBit ((tpm_remove_hardware (registerSeq 2 initMask).2 0).getD 0 0) 1 = false := by
  refine ⟨by decide, by decide, by decide⟩

/-- If no polled status ever satisfies the completion condition or
equals the cancellation value, the poll loop exits `timedOut` at a
jiffies value at or past the deadline `stop`. -/
theorem pollFrom_no_complete (statusAt : Nat → Nat) (mask cval canc sleep1 stop : Nat)
    (hnc : ∀ k, ¬ statusAt k &&& mask = cval) (hcan : ∀ k, ¬ statusAt k = canc)
    (k now : Nat) :
    (pollFrom statusAt mask cval canc sleep1 stop k now).exit = .timedOut ∧
    stop ≤ (pollFrom statusAt mask cval canc sleep1 stop k now).fin := by
  induction k, now using pollFrom.induct statusAt mask cval canc sleep1 stop with
  | case1 k now h => exact absurd h (hnc k)
  | case2 k now h1 h2 => exact absurd h2 (hcan k)
  | case3 k now h1 h2 h3 ih =>
      rw [pollFrom, if_neg h1, if_neg h2, dif_pos h3]
      exact ih
  | case4 k now h1 h2 h3 =>
      rw [pollFrom, if_neg h1, if_neg h2, dif_neg h3]
      refine ⟨rfl, ?_⟩
      show stop ≤ now + sleep1 + 1
      omega

/-- C5: for a valid command (nonzero decoded length within capacity)
that the transport accepts, if `status()` never satisfies the
completion condition and never equals the canceled value, then
`tpm_transmit` returns `-ETIME`, its trace invokes the vendor `cancel`
exactly once, and the poll loop ran until the jiffies deadline
`startJ + 2 * 60 * HZ` (120 seconds) had passed. -/
theorem transmit_timeout_cancels_once (v : Vendor) (e : Env) (buf : List Nat)
    (bufsiz : Nat) (pos : Int)
    (hc0 : 0 < be32 buf 2) (hcap : be32 buf 2 ≤ bufsiz) (hsend : 0 ≤ v.sendResult)
    (hnc : ∀ k, ¬ v.statusAt k &&& v.req_complete_mask = v.req_complete_val)
    (hcan : ∀ k, ¬ v.statusAt k = v.req_canceled) :
    (tpm_transmit v e buf bufsiz pos).rc = -ETIME ∧
    (tpm_transmit v e buf bufsiz pos).trace.count Ev.cancel = 1 ∧
    e.startJ + 2 * 60 * e.HZ ≤
      (pollFrom v.statusAt v.req_complete_mask v.req_complete_val
        v.req_canceled e.sleep1 (e.startJ + 2 * 60 * e.HZ) 0 e.startJ).fin := by
  have hp := pollFrom_no_complete v.statusAt v.req_complete_mask v.req_complete_val
    v.req_canceled e.sleep1 (e.startJ + 2 * 60 * e.HZ) hnc hcan 0 e.startJ
  have h0 : ¬ be32 buf 2 = 0 := by omega
  have h1 : ¬ bufsiz < be32 buf 2 := by omega
  have h2 : ¬ v.sendResult < 0 := by omega
  have hrun : tpm_transmit v e buf bufsiz pos =
      ⟨-ETIME, buf, pos, [.acquire, .send, .cancel, .release]⟩ := by
    simp [tpm_transmit, h0, h1, h2, hp.1]
  rw [hrun]
  exact ⟨rfl, rfl, hp.2⟩

/-- Witness for C5 at a concrete transport whose status is always 0
(mask 1, completion value 1, canceled value 5) and a 6-byte command of
length 1 against capacity 8. -/
theorem transmit_timeout_cancels_once_witness :
    (tpm_transmit vW eW [0, 0, 0, 0, 0, 1] 8 0).rc = -ETIME ∧
    (tpm_transmit vW eW [0, 0, 0, 0, 0, 1] 8 0).trace.count Ev.cancel = 1 ∧
    eW.startJ + 2 * 60 * eW.HZ ≤
      (pollFrom vW.statusAt vW.req_complete_mask vW.req_complete_val
        vW.req_canceled eW.sleep1 (eW.startJ + 2 * 60 * eW.HZ) 0 eW.startJ).fin :=
  transmit_timeout_cancels_once vW eW [0, 0, 0, 0, 0, 1] 8 0 (by decide) (by decide)
    (by decide) (by intro k; show ¬ ((0 : Nat) &&& 1 = 1); decide)
    (by intro k; show ¬ ((0 : Nat) = 5); decide)

/-- The session buffer allocated by `tpm_open` has `TPM_BUFSIZE` bytes. -/
theorem cW_buf_len : cW.data_buffer.length = TPM_BUFSIZE := by
  show (List.replicate TPM_BUFSIZE 0).length = TPM_BUFSIZE
  exact List.length_replicate _ _

/-- The all-zero 6-byte command staged into the session buffer decodes
to length 0. -/
theorem zero_cmd_count :
    be32 (overwrite cW.data_buffer [0, 0, 0, 0, 0, 0]) 2 = 0 := by
  rw [be32_overwrite _ _ (by decide) (by rw [cW_buf_len]; decide)]
  decide

/-- The truncation `min` keeps the whole 6-byte input. -/
theorem take_min_six :
    List.take (min ([0, 0, 0, 0, 0, 0] : List Nat).length TPM_BUFSIZE)
      ([0, 0, 0, 0, 0, 0] : List Nat) = [0, 0, 0, 0, 0, 0] := by
  decide

/-- `tpm_transmit` on the staged zero-length command fails with
`-ENODATA`, touching nothing. -/
theorem zero_cmd_transmit :
    tpm_transmit vW eW (overwrite cW.data_buffer [0, 0, 0, 0, 0, 0])
      TPM_BUFSIZE cW.data_position =
    ⟨-ENODATA, overwrite cW.data_buffer [0, 0, 0, 0, 0, 0],
      cW.data_position, []⟩ := by
  simp only [tpm_transmit]
  rw [if_pos zero_cmd_count]

/-- C6 counterexample: `tpm_write` of a 6-byte command whose encoded
length is 0 makes `tpm_transmit` fail with `-ENODATA`, yet the write
returns the accepted byte count 6, not the error — the error lands in
`data_pending` instead. -/
theorem write_error_not_propagated :
    (tpm_transmit vW eW (overwrite cW.data_buffer [0, 0, 0, 0, 0, 0])
      TPM_BUFSIZE cW.data_position).rc = -ENODATA ∧
    (tpm_write vW eW cW [0, 0, 0, 0, 0, 0]).1 = 6 ∧
    (tpm_write vW eW cW [0, 0, 0, 0, 0, 0]).2.data_pending = -ENODATA ∧
    (tpm_write vW eW cW [0, 0, 0, 0, 0, 0]).1 ≠ -ENODATA := by
  refine ⟨?_, ?_, ?_, ?_⟩
  · rw [zero_cmd_transmit]
  · simp only [tpm_write]
    norm_num [TPM_BUFSIZE]
  · simp only [tpm_write, take_min_six, zero_cmd_transmit]
  · simp only [tpm_write]
    norm_num [TPM_BUFSIZE, ENODATA]

/-- C6 (amended): on an idle open session, `tpm_write` copies
`min(n, TPM_BUFSIZE)` input bytes into the chip buffer (silently
truncating excess), invokes `tpm_transmit` on the full buffer, stores
the transmit result as the new pending size, arms the 60-second expiry
timer, and returns the number of input bytes accepted; a negative
transmit result is likewise stored as the pending size (surfacing on a
later read) while the write still returns the accepted count. -/
theorem write_truncates_stages_and_arms (v : Vendor) (e : Env) (c : Chip)
    (input : List Nat) :
    (tpm_write v e c input).1 = (min input.length TPM_BUFSIZE : Nat) ∧
    (tpm_write v e c input).2.data_pending =
      (tpm_transmit v e
        (overwrite c.data_buffer (input.take (min input.length TPM_BUFSIZE)))
        TPM_BUFSIZE c.data_position).rc ∧
    (tpm_write v e c input).2.data_buffer =
      (tpm_transmit v e
        (overwrite c.data_buffer (input.take (min input.length TPM_BUFSIZE)))
        TPM_BUFSIZE c.data_position).buf ∧
    (tpm_write v e c input).2.data_position =
      (tpm_transmit v e
        (overwrite c.data_buffer (input.take (min input.length TPM_BUFSIZE)))
        TPM_BUFSIZE c.data_position).pos ∧
    (tpm_write v e c input).2.timer = some (60 * e.HZ) ∧
    ((tpm_transmit v e
        (overwrite c.data_buffer (input.take (min input.length TPM_BUFSIZE)))
        TPM_BUFSIZE c.data_position).rc < 0 →
      (tpm_write v e c input).1 = (min input.length TPM_BUFSIZE : Nat) ∧
      (tpm_write v e c input).2.data_pending =
        (tpm_transmit v e
          (overwrite c.data_buffer (input.take (min input.length TPM_BUFSIZE)))
          TPM_BUFSIZE c.data_position).rc) :=
  ⟨rfl, rfl, rfl, rfl, rfl, fun _ => ⟨rfl, rfl⟩⟩

/-- Witness for C6 (amended) at a concrete erroring transmit: the
zero-length command again, where the transmit result is negative. -/
theorem write_truncates_stages_and_arms_witness :
    (tpm_write vW eW cW [0, 0, 0, 0, 0, 0]).1 =
      (min ([0, 0, 0, 0, 0, 0] : List Nat).length TPM_BUFSIZE : Nat) ∧
    (tpm_write vW eW cW [0, 0, 0, 0, 0, 0]).2.data_pending =
      (tpm_transmit vW eW
        (overwrite cW.data_buffer
          (List.take (min ([0, 0, 0, 0, 0, 0] : List Nat).length TPM_BUFSIZE)
            [0, 0, 0, 0, 0, 0]))
        TPM_BUFSIZE cW.data_position).rc :=
  (write_truncates_stages_and_arms vW eW cW [0, 0, 0, 0, 0, 0]).2.2.2.2.2
    (by rw [take_min_six, zero_cmd_transmit]; norm_num [ENODATA])

/-- Closed form of a fault-free `tpm_read` when a result is pending. -/
theorem tpm_read_spec (c : Chip) (size : Nat) (h : 0 < c.data_pending) :
    tpm_read c size false =
      ⟨min c.data_pending (size : Int),
       (c.data_buffer.drop c.data_position.toNat).take
         (min c.data_pending (size : Int)).toNat,
       ⟨c.data_pending - min c.data_pending (size : Int),
        c.data_position + min c.data_pending (size : Int),
        c.data_buffer, none⟩⟩ := by
  simp only [tpm_read]
  rw [if_pos h]
  rfl

/-- Closed form of `tpm_transmit` when the command validates, the
transport accepts it, and the very first status poll reports
completion. -/
theorem transmit_completed (v : Vendor) (e : Env) (buf : List Nat)
    (bufsiz : Nat) (pos : Int)
    (hc0 : ¬ be32 buf 2 = 0) (hcap : ¬ bufsiz < be32 buf 2)
    (hsend : ¬ v.sendResult < 0)
    (hdone : v.statusAt 0 &&& v.req_complete_mask = v.req_complete_val) :
    tpm_transmit v e buf bufsiz pos =
      ⟨v.recvResult, overwrite buf (v.recvBytes.take bufsiz), 0,
        [.acquire, .send, .recv, .release]⟩ := by
  have hpoll : pollFrom v.statusAt v.req_complete_mask v.req_complete_val
      v.req_canceled e.sleep1 (e.startJ + 2 * 60 * e.HZ) 0 e.startJ =
      ⟨.completed, e.startJ⟩ := by
    rw [pollFrom, if_pos hdone]
  simp only [tpm_transmit]
  rw [if_neg hc0, if_neg hcap, if_neg hsend, hpoll]

/-- `tpm_transmit` either fails with one of its own error codes or the
(negative) send result — leaving `data_position` untouched — or takes
the receive path, returning the vendor `recv` result with
`data_position` reset to 0. -/
theorem transmit_cases (v : Vendor) (e : Env) (buf : List Nat)
    (bufsiz : Nat) (pos : Int) :
    (((tpm_transmit v e buf bufsiz pos).rc = -ENODATA ∨
      (tpm_transmit v e buf bufsiz pos).rc = -E2BIG ∨
      (tpm_transmit v e buf bufsiz pos).rc = -ECANCELED ∨
      (tpm_transmit v e buf bufsiz pos).rc = -ETIME ∨
      ((tpm_transmit v e buf bufsiz pos).rc = v.sendResult ∧ v.sendResult < 0)) ∧
      (tpm_transmit v e buf bufsiz pos).pos = pos) ∨
    ((tpm_transmit v e buf bufsiz pos).rc = v.recvResult ∧
      (tpm_transmit v e buf bufsiz pos).pos = 0) := by
  simp only [tpm_transmit]
  split
  · exact Or.inl ⟨Or.inl rfl, rfl⟩
  split
  · exact Or.inl ⟨Or.inr (Or.inl rfl), rfl⟩
  split
  · next h => exact Or.inl ⟨Or.inr (Or.inr (Or.inr (Or.inr ⟨rfl, h⟩))), rfl⟩
  split
  · exact Or.inl ⟨Or.inr (Or.inr (Or.inl rfl)), rfl⟩
  · exact Or.inl ⟨Or.inr (Or.inr (Or.inr (Or.inl rfl))), rfl⟩
  · exact Or.inr ⟨rfl, rfl⟩

/-- C7: a fault-free `tpm_read` with pending > 0 returns exactly
`min(pending, max_len)` bytes of the buffered response starting at the
cursor, decrements pending and advances the cursor by that amount;
consequently, after one successful write whose transport delivered
`recvBytes`, two reads whose sizes split the response return the two
contiguous halves in order with no bytes dropped or duplicated, and a
third read returns zero bytes. -/
theorem read_relays_and_two_reads_split
    (c : Chip) (size : Nat) (hp : 0 < c.data_pending)
    (v : Vendor) (e : Env) (c0 : Chip) (input : List Nat) (a b : Nat)
    (hbuflen : c0.data_buffer.length = TPM_BUFSIZE)
    (hinlen : 6 ≤ input.length)
    (hcnt0 : 0 < be32 input 2) (hcntcap : be32 input 2 ≤ TPM_BUFSIZE)
    (hsend : 0 ≤ v.sendResult)
    (hdone : v.statusAt 0 &&& v.req_complete_mask = v.req_complete_val)
    (hrlen : (v.recvBytes.length : Int) = v.recvResult)
    (hrcap : v.recvBytes.length ≤ TPM_BUFSIZE)
    (ha0 : 0 < a) (ha : a < v.recvBytes.length)
    (hb : v.recvBytes.length - a ≤ b) :
    ((tpm_read c size false).rc = min c.data_pending (size : Int) ∧
     (tpm_read c size false).bytes =
       (c.data_buffer.drop c.data_position.toNat).take
         (min c.data_pending (size : Int)).toNat ∧
     (tpm_read c size false).chip.data_pending =
       c.data_pending - min c.data_pending (size : Int) ∧
     (tpm_read c size false).chip.data_position =
       c.data_position + min c.data_pending (size : Int)) ∧
    ((tpm_read (tpm_write v e c0 input).2 a false).bytes ++
       (tpm_read (tpm_read (tpm_write v e c0 input).2 a false).chip b
         false).bytes = v.recvBytes ∧
     (tpm_read (tpm_write v e c0 input).2 a false).bytes.length = a ∧
     (tpm_read (tpm_read (tpm_read (tpm_write v e c0 input).2 a false).chip b
       false).chip b false).rc = 0 ∧
     (tpm_read (tpm_read (tpm_read (tpm_write v e c0 input).2 a false).chip b
       false).chip b false).bytes = []) := by
  constructor
  · rw [tpm_read_spec c size hp]
    exact ⟨rfl, rfl, rfl, rfl⟩
  have hTB : (6 : Nat) ≤ TPM_BUFSIZE := by norm_num [TPM_BUFSIZE]
  have hmin6 : 6 ≤ min input.length TPM_BUFSIZE := le_min hinlen hTB
  have hb1len : (overwrite c0.data_buffer
      (input.take (min input.length TPM_BUFSIZE))).length = TPM_BUFSIZE := by
    rw [overwrite_length, hbuflen]
  have hcnt : be32 (overwrite c0.data_buffer
      (input.take (min input.length TPM_BUFSIZE))) 2 = be32 input 2 := by
    rw [be32_overwrite c0.data_buffer (input.take (min input.length TPM_BUFSIZE))
      (by rw [List.length_take]; omega) (by rw [hbuflen]; exact hTB)]
    unfold be32
    rw [getD_take_lt input _ 2 0 (by omega), getD_take_lt input _ 3 0 (by omega),
      getD_take_lt input _ 4 0 (by omega), getD_take_lt input _ 5 0 (by omega)]
  have hc0' : ¬ be32 (overwrite c0.data_buffer
      (input.take (min input.length TPM_BUFSIZE))) 2 = 0 := by rw [hcnt]; omega
  have hcap' : ¬ TPM_BUFSIZE < be32 (overwrite c0.data_buffer
      (input.take (min input.length TPM_BUFSIZE))) 2 := by rw [hcnt]; omega
  have hsend' : ¬ v.sendResult < 0 := not_lt.mpr hsend
  have htake : v.recvBytes.take TPM_BUFSIZE = v.recvBytes :=
    List.take_of_length_le hrcap
  have htr : tpm_transmit v e (overwrite c0.data_buffer
      (input.take (min input.length TPM_BUFSIZE))) TPM_BUFSIZE c0.data_position =
      ⟨(v.recvBytes.length : Int),
       overwrite (overwrite c0.data_buffer
         (input.take (min input.length TPM_BUFSIZE))) v.recvBytes, 0,
       [.acquire, .send, .recv, .release]⟩ := by
    rw [transmit_completed v e _ TPM_BUFSIZE c0.data_position hc0' hcap' hsend' hdone,
      htake, hrlen]
  have hw2 : (tpm_write v e c0 input).2 =
      ⟨(v.recvBytes.length : Int), 0,
       overwrite (overwrite c0.data_buffer
         (input.take (min input.length TPM_BUFSIZE))) v.recvBytes,
       some (60 * e.HZ)⟩ := by
    simp only [tpm_write, htr]
  have hB2take : (overwrite (overwrite c0.data_buffer
      (input.take (min input.length TPM_BUFSIZE))) v.recvBytes).take
        v.recvBytes.length = v.recvBytes :=
    take_overwrite _ _ (by rw [hb1len]; exact hrcap)
  have hL0 : (0 : Int) < (v.recvBytes.length : Int) := by
    exact_mod_cast lt_trans ha0 ha
  have hminA : min ((v.recvBytes.length : Int)) ((a : Int)) = (a : Int) :=
    min_eq_right (by exact_mod_cast ha.le)
  have hr1 := tpm_read_spec
    ⟨(v.recvBytes.length : Int), 0,
     overwrite (overwrite c0.data_buffer
       (input.take (min input.length TPM_BUFSIZE))) v.recvBytes,
     some (60 * e.HZ)⟩ a hL0
  have hpend2 : (0 : Int) < (v.recvBytes.length : Int) - (a : Int) := by
    have : (a : Int) < (v.recvBytes.length : Int) := by exact_mod_cast ha
    omega
  have hminB : min ((v.recvBytes.length : Int) - (a : Int)) ((b : Int)) =
      (v.recvBytes.length : Int) - (a : Int) := by
    refine min_eq_left ?_
    have h1 : v.recvBytes.length - a ≤ b := hb
    have h2 : a < v.recvBytes.length := ha
    omega
  have htnA : ((a : Int)).toNat = a := Int.toNat_natCast a
  have htnB : ((v.recvBytes.length : Int) - (a : Int)).toNat =
      v.recvBytes.length - a := by omega
  have hq1 := List.take_take a v.recvBytes.length
    (overwrite (overwrite c0.data_buffer
      (input.take (min input.length TPM_BUFSIZE))) v.recvBytes)
  rw [hB2take, min_eq_left ha.le] at hq1
  have hq2 := List.drop_take v.recvBytes.length a
    (overwrite (overwrite c0.data_buffer
      (input.take (min input.length TPM_BUFSIZE))) v.recvBytes)
  rw [hB2take] at hq2
  rw [hw2, hr1]
  simp only [hminA, htnA, Int.toNat_zero, List.drop_zero, zero_add, sub_self]
  have hr2 := tpm_read_spec
    ⟨(v.recvBytes.length : Int) - (a : Int), (a : Int),
     overwrite (overwrite c0.data_buffer
       (input.take (min input.length TPM_BUFSIZE))) v.recvBytes, none⟩ b hpend2
  rw [hr2]
  simp only [hminB, htnA, htnB, sub_self]
  have hpos3 : (a : Int) + ((v.recvBytes.length : Int) - (a : Int)) =
      (v.recvBytes.length : Int) := by ring
  rw [hpos3]
  refine ⟨?_, ?_, ?_, ?_⟩
  · rw [← hq1, ← hq2, List.take_append_drop]
  · rw [← hq1, List.length_take]
    have := hB2take
    omega
  · simp [tpm_read]
  · simp [tpm_read]

/-- A chip with 3 pending bytes at cursor 0 over a 3-byte buffer. -/
def cR : Chip := ⟨3, 0, [9, 8, 7], none⟩

/-- Witness for C7: a pending chip read with `size = 2`, and the
write/read/read/read scenario with a 10-byte PCR-style command, a
4-byte response `[1, 2, 3, 4]`, split as 1 + 3. -/
theorem read_relays_and_two_reads_split_witness :
    ((tpm_read cR 2 false).rc = min cR.data_pending ((2 : Nat) : Int) ∧
     (tpm_read cR 2 false).bytes =
       (cR.data_buffer.drop cR.data_position.toNat).take
         (min cR.data_pending ((2 : Nat) : Int)).toNat ∧
     (tpm_read cR 2 false).chip.data_pending =
       cR.data_pending - min cR.data_pending ((2 : Nat) : Int) ∧
     (tpm_read cR 2 false).chip.data_position =
       cR.data_position + min cR.data_pending ((2 : Nat) : Int)) ∧
    ((tpm_read (tpm_write vR eW cW [0, 193, 0, 0, 0, 10, 0, 0, 0, 0]).2 1 false).bytes ++
       (tpm_read (tpm_read (tpm_write vR eW cW
         [0, 193, 0, 0, 0, 10, 0, 0, 0, 0]).2 1 false).chip 3 false).bytes =
           vR.recvBytes ∧
     (tpm_read (tpm_write vR eW cW [0, 193, 0, 0, 0, 10, 0, 0, 0, 0]).2 1
       false).bytes.length = 1 ∧
     (tpm_read (tpm_read (tpm_read (tpm_write vR eW cW
       [0, 193, 0, 0, 0, 10, 0, 0, 0, 0]).2 1 false).chip 3 false).chip 3
         false).rc = 0 ∧
     (tpm_read (tpm_read (tpm_read (tpm_write vR eW cW
       [0, 193, 0, 0, 0, 10, 0, 0, 0, 0]).2 1 false).chip 3 false).chip 3
         false).bytes = []) :=
  read_relays_and_two_reads_split cR 2 (by decide) vR eW cW
    [0, 193, 0, 0, 0, 10, 0, 0, 0, 0] 1 3 cW_buf_len (by decide) (by decide)
    (by decide) (by decide) (by decide) (by decide) (by decide) (by decide)
    (by decide) (by decide)

/-- The (strengthened, inductive) hand-off invariant: the cursor is
within the buffer and cursor + pending never exceeds the capacity. -/
def handoffInv (c : Chip) : Prop :=
  0 ≤ c.data_position ∧ c.data_position ≤ ((TPM_BUFSIZE : Nat) : Int) ∧
  c.data_position + c.data_pending ≤ ((TPM_BUFSIZE : Nat) : Int)

/-- Every hand-off operation preserves the invariant, provided the
transport honours the `recv` capacity contract. -/
theorem stepOp_inv (c : Chip) (op : Op) (h : handoffInv c) (hop : OpOK op) :
    handoffInv (stepOp c op) := by
  obtain ⟨h1, h2, h3⟩ := h
  cases op with
  | write v e input =>
      simp only [stepOp]
      split
      · simp only [tpm_write, handoffInv]
        rcases transmit_cases v e
          (overwrite c.data_buffer (input.take (min input.length TPM_BUFSIZE)))
          TPM_BUFSIZE c.data_position with ⟨hA, hpos⟩ | ⟨hrc, hpos⟩
        · have hneg : (tpm_transmit v e
              (overwrite c.data_buffer (input.take (min input.length TPM_BUFSIZE)))
              TPM_BUFSIZE c.data_position).rc < 0 := by
            rcases hA with hh | hh | hh | hh | ⟨hh, hs⟩
            · rw [hh]; norm_num [ENODATA]
            · rw [hh]; norm_num [E2BIG]
            · rw [hh]; norm_num [ECANCELED]
            · rw [hh]; norm_num [ETIME]
            · rw [hh]; exact hs
          rw [hpos]
          exact ⟨h1, h2, by omega⟩
        · rw [hpos, hrc]
          have hv : VendorOK v := hop
          have hv' : v.recvResult ≤ ((TPM_BUFSIZE : Nat) : Int) := hv
          exact ⟨le_refl 0, by positivity, by omega⟩
      · exact ⟨h1, h2, h3⟩
  | read size fault =>
      simp only [stepOp, tpm_read]
      split
      · next hpend =>
          split
          · exact ⟨h1, h2, h3⟩
          · have hm1 : (0 : Int) ≤ c.data_position + min c.data_pending (size : Int) := by
              omega
            have hm2 : c.data_position + min c.data_pending (size : Int) ≤
                ((TPM_BUFSIZE : Nat) : Int) := by omega
            have hm3 : c.data_position + min c.data_pending (size : Int) +
                (c.data_pending - min c.data_pending (size : Int)) ≤
                ((TPM_BUFSIZE : Nat) : Int) := by omega
            exact ⟨hm1, hm2, hm3⟩
      · exact ⟨h1, h2, h3⟩
  | timerFire =>
      simp only [stepOp, user_reader_timeout]
      have hm : c.data_position + (0 : Int) ≤ ((TPM_BUFSIZE : Nat) : Int) := by omega
      exact ⟨h1, h2, hm⟩

/-- The invariant holds after any operation sequence from an invariant
state. -/
theorem runOps_inv (ops : List Op) (c : Chip) (h : handoffInv c)
    (hop : ∀ op ∈ ops, OpOK op) : handoffInv (runOps c ops) := by
  induction ops generalizing c with
  | nil => exact h
  | cons op ops ih =>
      exact ih (stepOp c op) (stepOp_inv c op h (hop op (List.mem_cons_self op ops)))
        (fun o ho => hop o (List.mem_cons_of_mem op ho))

/-- C9: from a freshly opened chip (cursor = 0, pending = 0), every
sequence of hand-off operations — `tpm_write` (including
`tpm_transmit`'s cursor reset), `tpm_read`, and the expiry-timer
discard — maintains `0 ≤ cursor` and
`cursor + pending ≤ TPM_BUFSIZE`, assuming the transport's `recv`
honours the buffer capacity. -/
theorem handoff_state_invariant (b : List Nat) (ops : List Op)
    (h : ∀ op ∈ ops, OpOK op) :
    (chipInit b).data_position = 0 ∧ (chipInit b).data_pending = 0 ∧
    0 ≤ (runOps (chipInit b) ops).data_position ∧
    (runOps (chipInit b) ops).data_position +
      (runOps (chipInit b) ops).data_pending ≤ ((TPM_BUFSIZE : Nat) : Int) := by
  have h0 : handoffInv (chipInit b) :=
    ⟨le_refl 0, by positivity, by
      show (0 : Int) + 0 ≤ ((TPM_BUFSIZE : Nat) : Int)
      positivity⟩
  have hrun := runOps_inv ops (chipInit b) h0 h
  exact ⟨rfl, rfl, hrun.1, hrun.2.2⟩

/-- Witness for C9: a timer expiry followed by a read of 5 bytes. -/
theorem handoff_state_invariant_witness :
    (chipInit [7, 7]).data_position = 0 ∧ (chipInit [7, 7]).data_pending = 0 ∧
    0 ≤ (runOps (chipInit [7, 7]) [Op.timerFire, Op.read 5 false]).data_position ∧
    (runOps (chipInit [7, 7]) [Op.timerFire, Op.read 5 false]).data_position +
      (runOps (chipInit [7, 7])
        [Op.timerFire, Op.read 5 false]).data_pending ≤ ((TPM_BUFSIZE : Nat) : Int) :=
  handoff_state_invariant [7, 7] [Op.timerFire, Op.read 5 false]
    (by
      intro op hop
      simp only [List.mem_cons, List.not_mem_nil, or_false] at hop
      rcases hop with rfl | rfl <;> trivial)

/-- One interleaving step preserves the mutex invariant. -/
theorem MStep_inv {n : Nat} {s s' : MSys n} (h : MInv s) (hs : MStep s s') :
    MInv s' := by
  cases hs with
  | toWait t ht =>
      intro u hu
      have hu' : Function.update s.phase t Phase.waiting u = Phase.critical := hu
      show s.owner = some u
      by_cases htu : u = t
      · subst htu
        rw [Function.update_same] at hu'
        exact absurd hu' (by simp)
      · rw [Function.update_noteq htu] at hu'
        exact h u hu'
  | acquire t ht howner =>
      intro u hu
      have hu' : Function.update s.phase t Phase.critical u = Phase.critical := hu
      show some t = some u
      by_cases htu : u = t
      · subst htu; rfl
      · rw [Function.update_noteq htu] at hu'
        have hx := h u hu'
        rw [howner] at hx
        exact absurd hx (by simp)
  | release t ht =>
      intro u hu
      have hu' : Function.update s.phase t Phase.past u = Phase.critical := hu
      show (none : Option (Fin n)) = some u
      by_cases htu : u = t
      · subst htu
        rw [Function.update_same] at hu'
        exact absurd hu' (by simp)
      · rw [Function.update_noteq htu] at hu'
        have h1 := h u hu'
        have h2 := h t ht
        rw [h2] at h1
        exact absurd (Option.some.inj h1) (fun hx => htu hx.symm)

/-- The mutex invariant holds in every reachable state. -/
theorem reachable_MInv {n : Nat} {s : MSys n}
    (h : Relation.ReflTransGen MStep (initSys n) s) : MInv s := by
  induction h with
  | refl => intro u hu; exact absurd hu (by simp [initSys])
  | tail _ hstep ih => exact MStep_inv ih hstep

/-- C3: every `tpm_transmit` run either never touches the lock (the
pre-lock validation failures) or acquires the transaction mutex
exactly once, performs all vendor operations strictly inside the
critical section, and releases the mutex as its last action — on every
exit path (send failure, cancellation, timeout, receive); and in the
interleaved execution of any number of concurrent callers the mutex
admits at most one caller in the critical section, so no re-entrant
vendor `send` on the same chip is possible. -/
theorem transmit_serialized_and_lock_released :
    (∀ (v : Vendor) (e : Env) (buf : List Nat) (bufsiz : Nat) (pos : Int),
      (tpm_transmit v e buf bufsiz pos).trace = [] ∨
      ∃ mid, (tpm_transmit v e buf bufsiz pos).trace =
          Ev.acquire :: mid ++ [Ev.release] ∧
        Ev.acquire ∉ mid ∧ Ev.release ∉ mid) ∧
    (∀ (n : Nat) (s : MSys n),
      Relation.ReflTransGen MStep (initSys n) s →
      ∀ t1 t2, s.phase t1 = Phase.critical → s.phase t2 = Phase.critical →
        t1 = t2) := by
  constructor
  · intro v e buf bufsiz pos
    simp only [tpm_transmit]
    split
    · exact Or.inl rfl
    split
    · exact Or.inl rfl
    split
    · exact Or.inr ⟨[Ev.send], rfl, by decide, by decide⟩
    split
    · exact Or.inr ⟨[Ev.send], rfl, by decide, by decide⟩
    · exact Or.inr ⟨[Ev.send, Ev.cancel], rfl, by decide, by decide⟩
    · exact Or.inr ⟨[Ev.send, Ev.recv], rfl, by decide, by decide⟩
  · intro n s hreach t1 t2 h1 h2
    have hinv := reachable_MInv hreach
    have e1 := hinv t1 h1
    have e2 := hinv t2 h2
    rw [e1] at e2
    exact Option.some.inj e2

/-- A one-caller system that has gone `before → waiting → critical`. -/
def sCrit : MSys 1 :=
  ⟨Function.update (Function.update (initSys 1).phase 0 Phase.waiting) 0
    Phase.critical, some 0⟩

/-- Witness for C3: the trace shape at a concrete command, and mutual
exclusion at the concretely reached critical state `sCrit`. -/
theorem transmit_serialized_and_lock_released_witness :
    ((tpm_transmit vR eW [0, 0, 0, 0, 0, 2] 8 0).trace = [] ∨
      ∃ mid, (tpm_transmit vR eW [0, 0, 0, 0, 0, 2] 8 0).trace =
          Ev.acquire :: mid ++ [Ev.release] ∧
        Ev.acquire ∉ mid ∧ Ev.release ∉ mid) ∧
    (0 : Fin 1) = 0 := by
  constructor
  · exact transmit_serialized_and_lock_released.1 vR eW [0, 0, 0, 0, 0, 2] 8 0
  · refine transmit_serialized_and_lock_released.2 1 sCrit ?_ 0 0 ?_ ?_
    · refine Relation.ReflTransGen.tail
        (Relation.ReflTransGen.tail Relation.ReflTransGen.refl
          (MStep.toWait (s := initSys 1) 0 rfl)) ?_
      exact MStep.acquire 0
        (by
          show Function.update (initSys 1).phase 0 Phase.waiting 0 = Phase.waiting
          rw [Function.update_same]) rfl
    · simp [sCrit]
    · simp [sCrit]

/-- C10: `tpm_pcr_read` returns `-ENOSPC` if and only if the caller
supplied a non-null result buffer smaller than the 20-byte digest
(assuming the transport's error codes and the response's decoded
status field are not themselves `-ENOSPC`); in that case the
transaction is never started.  With a null result buffer the size
check is skipped: a failed lookup yields `-ENODEV`, otherwise the
PCR-read transaction runs, a positive transmit result is replaced by
the decoded 32-bit status at offset 6, and no digest is copied out. -/
theorem pcr_read_enospc_iff (v : Vendor) (e : Env) (chipFound : Bool)
    (pcr_idx : Nat) (res_buf : Bool) (res_buf_size : Int) (uninit : List Nat)
    (hsend : ¬ v.sendResult = -ENOSPC) (hrecv : ¬ v.recvResult = -ENOSPC)
    (hdec : ¬ toInt32 (be32 (tpm_transmit v e (pcrReadData pcr_idx uninit)
      READ_PCR_RESULT_SIZE 0).buf 6) = -ENOSPC) :
    ((tpm_pcr_read v e chipFound pcr_idx res_buf res_buf_size uninit).rc =
        -ENOSPC ↔
      res_buf = true ∧ res_buf_size < ((TPM_DIGEST_SIZE : Nat) : Int)) ∧
    (res_buf = true ∧ res_buf_size < ((TPM_DIGEST_SIZE : Nat) : Int) →
      (tpm_pcr_read v e chipFound pcr_idx res_buf res_buf_size uninit).trace =
        [] ∧
      (tpm_pcr_read v e chipFound pcr_idx res_buf res_buf_size uninit).digest =
        none) ∧
    (res_buf = false →
      (tpm_pcr_read v e chipFound pcr_idx res_buf res_buf_size uninit).digest =
        none ∧
      (chipFound = false →
        (tpm_pcr_read v e chipFound pcr_idx res_buf res_buf_size uninit).rc =
          -ENODEV) ∧
      (chipFound = true →
        (tpm_pcr_read v e chipFound pcr_idx res_buf res_buf_size uninit).trace =
          (tpm_transmit v e (pcrReadData pcr_idx uninit)
            READ_PCR_RESULT_SIZE 0).trace ∧
        (0 < (tpm_transmit v e (pcrReadData pcr_idx uninit)
            READ_PCR_RESULT_SIZE 0).rc →
          (tpm_pcr_read v e chipFound pcr_idx res_buf res_buf_size uninit).rc =
            toInt32 (be32 (tpm_transmit v e (pcrReadData pcr_idx uninit)
              READ_PCR_RESULT_SIZE 0).buf 6)))) := by
  by_cases hA : res_buf = true ∧ res_buf_size < ((TPM_DIGEST_SIZE : Nat) : Int)
  · have hres : tpm_pcr_read v e chipFound pcr_idx res_buf res_buf_size uninit =
        ⟨-ENOSPC, none, []⟩ := by
      simp only [tpm_pcr_read]
      rw [if_pos hA]
    rw [hres]
    refine ⟨⟨fun _ => hA, fun _ => rfl⟩, fun _ => ⟨rfl, rfl⟩, ?_⟩
    intro hf
    rw [hf] at hA
    exact absurd hA.1 (by simp)
  · by_cases hcf : chipFound = false
    · have hres : tpm_pcr_read v e chipFound pcr_idx res_buf res_buf_size uninit =
          ⟨-ENODEV, none, []⟩ := by
        simp only [tpm_pcr_read]
        rw [if_neg hA, if_pos hcf]
      rw [hres]
      refine ⟨⟨fun h => absurd h (by norm_num [ENODEV, ENOSPC]),
        fun h => absurd h hA⟩, fun h => absurd h hA, ?_⟩
      intro _
      refine ⟨rfl, fun _ => rfl, fun hc => ?_⟩
      rw [hc] at hcf
      exact absurd hcf (by simp)
    · have hct : chipFound = true := by revert hcf; cases chipFound <;> simp
      have hrc2 : ¬ (if 0 < (tpm_transmit v e (pcrReadData pcr_idx uninit)
          READ_PCR_RESULT_SIZE 0).rc then
            toInt32 (be32 (tpm_transmit v e (pcrReadData pcr_idx uninit)
              READ_PCR_RESULT_SIZE 0).buf 6)
          else (tpm_transmit v e (pcrReadData pcr_idx uninit)
            READ_PCR_RESULT_SIZE 0).rc) = -ENOSPC := by
        split
        · exact hdec
        · rcases transmit_cases v e (pcrReadData pcr_idx uninit)
            READ_PCR_RESULT_SIZE 0 with ⟨hE, _⟩ | ⟨hE, _⟩
          · rcases hE with h | h | h | h | ⟨h, _⟩
            · rw [h]; norm_num [ENODATA, ENOSPC]
            · rw [h]; norm_num [E2BIG, ENOSPC]
            · rw [h]; norm_num [ECANCELED, ENOSPC]
            · rw [h]; norm_num [ETIME, ENOSPC]
            · rw [h]; exact hsend
          · rw [hE]; exact hrecv
      have hres : tpm_pcr_read v e chipFound pcr_idx res_buf res_buf_size uninit =
          (if (if 0 < (tpm_transmit v e (pcrReadData pcr_idx uninit)
                READ_PCR_RESULT_SIZE 0).rc then
                  toInt32 (be32 (tpm_transmit v e (pcrReadData pcr_idx uninit)
                    READ_PCR_RESULT_SIZE 0).buf 6)
                else (tpm_transmit v e (pcrReadData pcr_idx uninit)
                  READ_PCR_RESULT_SIZE 0).rc) = 0 ∧ res_buf = true then
            ⟨0, some (((tpm_transmit v e (pcrReadData pcr_idx uninit)
                READ_PCR_RESULT_SIZE 0).buf.drop 10).take TPM_DIGEST_SIZE),
              (tpm_transmit v e (pcrReadData pcr_idx uninit)
                READ_PCR_RESULT_SIZE 0).trace⟩
          else
            ⟨if 0 < (tpm_transmit v e (pcrReadData pcr_idx uninit)
                READ_PCR_RESULT_SIZE 0).rc then
                toInt32 (be32 (tpm_transmit v e (pcrReadData pcr_idx uninit)
                  READ_PCR_RESULT_SIZE 0).buf 6)
              else (tpm_transmit v e (pcrReadData pcr_idx uninit)
                READ_PCR_RESULT_SIZE 0).rc, none,
              (tpm_transmit v e (pcrReadData pcr_idx uninit)
                READ_PCR_RESULT_SIZE 0).trace⟩) := by
        simp only [tpm_pcr_read]
        rw [if_neg hA, if_neg hcf]
      rw [hres]
      by_cases hz : (if 0 < (tpm_transmit v e (pcrReadData pcr_idx uninit)
            READ_PCR_RESULT_SIZE 0).rc then
              toInt32 (be32 (tpm_transmit v e (pcrReadData pcr_idx uninit)
                READ_PCR_RESULT_SIZE 0).buf 6)
            else (tpm_transmit v e (pcrReadData pcr_idx uninit)
              READ_PCR_RESULT_SIZE 0).rc) = 0 ∧ res_buf = true
      · rw [if_pos hz]
        refine ⟨⟨fun h => absurd h (by norm_num [ENOSPC]), fun h => absurd h hA⟩,
          fun h => absurd h hA, ?_⟩
        intro hf
        rw [hf] at hz
        exact absurd hz.2 (by simp)
      · rw [if_neg hz]
        refine ⟨⟨fun h => absurd h hrc2, fun h => absurd h hA⟩,
          fun h => absurd h hA, ?_⟩
        intro _
        refine ⟨rfl, fun hc => ?_, fun _ => ⟨rfl, fun hpos => ?_⟩⟩
        · rw [hc] at hct
          exact absurd hct (by simp)
        · show (if 0 < (tpm_transmit v e (pcrReadData pcr_idx uninit)
              READ_PCR_RESULT_SIZE 0).rc then
                toInt32 (be32 (tpm_transmit v e (pcrReadData pcr_idx uninit)
                  READ_PCR_RESULT_SIZE 0).buf 6)
              else (tpm_transmit v e (pcrReadData pcr_idx uninit)
                READ_PCR_RESULT_SIZE 0).rc) =
            toInt32 (be32 (tpm_transmit v e (pcrReadData pcr_idx uninit)
              READ_PCR_RESULT_SIZE 0).buf 6)
          rw [if_pos hpos]

set_option maxRecDepth 4000 in
/-- Witness for C10: a non-null 10-byte result buffer makes
`tpm_pcr_read` fail with `-ENOSPC` on a concrete transport whose
response decodes to TPM status 21. -/
theorem pcr_read_enospc_iff_witness :
    (tpm_pcr_read vR eW true 0 true 10 (List.replicate 30 0)).rc = -ENOSPC :=
  ((pcr_read_enospc_iff vR eW true 0 true 10 (List.replicate 30 0)
    (by decide) (by decide)
    (by
      rw [transmit_completed vR eW (pcrReadData 0 (List.replicate 30 0))
        READ_PCR_RESULT_SIZE 0 (by decide) (by decide) (by decide) (by decide)]
      decide)).1).mpr (by decide)

end Tpm
